import Mathlib

/-!
Verification of the time-value layer of the pulse-binding repository
(file pulse-binding/src/time/timeval.rs), a shallow embedding in Lean 4.

Conventions of the embedding:
- The Rust i64 fields are embedded as Lean Int together with an explicit
  range predicate inI64 wherever overflow matters; checked arithmetic
  tests the range exactly where the source tests 64-bit overflow.
- A Rust panic (assertion failure or .unwrap() on a missing value) is
  embedded as the value none of an Option result; a normal return is some.
- The MicroSeconds leaf type, the sentinel USEC_INVALID, the conversions
  between MicroSeconds and Timeval, and the foreign primitives
  pa_timeval_cmp and pa_timeval_diff are defined in modules of the
  repository that are not among the given sources; each such definition
  below carries a doc comment starting with: Modelled from the spec.
- Clock reads (UnixTs::now, MonotonicTs::now) are embedded by passing the
  two snapshot values taken at call time as explicit arguments.
-/

/-- Lower bound of the 64-bit signed integer range. -/
def i64Min : Int := -(2 ^ 63)

/-- Upper bound of the 64-bit signed integer range. -/
def i64Max : Int := 2 ^ 63 - 1

/-- The value fits the 64-bit signed integer range (no overflow). -/
def inI64 (n : Int) : Prop := i64Min ≤ n ∧ n ≤ i64Max

instance (n : Int) : Decidable (inI64 n) := by
  unfold inI64; infer_instance

/-- Modelled from the spec: the leaf duration type, a single signed 64-bit
integer count of microseconds (its defining module is outside the given
sources). -/
structure MicroSeconds where
  us : Int
deriving DecidableEq

/-- Modelled from the spec: the reserved bit-pattern denoting the
invalid/unknown duration, distinct from zero; the all-ones 64-bit
pattern, read as the signed value -1 (the spec fixes only that it is one
reserved bit-pattern of the integer type). -/
def USEC_INVALID : MicroSeconds := ⟨-1⟩

/-- Modelled from the spec: number of microseconds in a second, the base of
the (seconds, microseconds) decomposition. -/
def MICROS_PER_SEC : Int := 1000000

/-- Modelled from the spec: checked addition on MicroSeconds; no value when
either operand is the invalid sentinel or the sum leaves the 64-bit
signed range, otherwise the exact sum. -/
def MicroSeconds.checked_add (a b : MicroSeconds) : Option MicroSeconds :=
  if a = USEC_INVALID ∨ b = USEC_INVALID then none
  else if inI64 (a.us + b.us) then some ⟨a.us + b.us⟩ else none

/-- Modelled from the spec: checked subtraction on MicroSeconds, same
failure conditions as checked addition. -/
def MicroSeconds.checked_sub (a b : MicroSeconds) : Option MicroSeconds :=
  if a = USEC_INVALID ∨ b = USEC_INVALID then none
  else if inI64 (a.us - b.us) then some ⟨a.us - b.us⟩ else none

/-- Modelled from the spec: checked multiplication by an unsigned 32-bit
scalar (embedded as Nat). -/
def MicroSeconds.checked_mul (a : MicroSeconds) (k : Nat) : Option MicroSeconds :=
  if a = USEC_INVALID then none
  else if inI64 (a.us * (k : Int)) then some ⟨a.us * (k : Int)⟩ else none

/-- Modelled from the spec: checked division by an unsigned 32-bit scalar;
no value on a zero divisor or a sentinel operand. -/
def MicroSeconds.checked_div (a : MicroSeconds) (k : Nat) : Option MicroSeconds :=
  if a = USEC_INVALID then none
  else if k = 0 then none
  else some ⟨a.us / (k : Int)⟩

/-- Modelled from the spec: checked remainder by an unsigned 32-bit scalar;
no value on a zero divisor or a sentinel operand. -/
def MicroSeconds.checked_rem (a : MicroSeconds) (k : Nat) : Option MicroSeconds :=
  if a = USEC_INVALID then none
  else if k = 0 then none
  else some ⟨a.us % (k : Int)⟩

/-- A platform duration value: whole seconds and a sub-second nanosecond
part (the shape of std::time::Duration). -/
structure Duration where
  secs : Nat
  nanos : Nat
deriving DecidableEq

/-- Modelled from the spec: conversion of a platform duration to
MicroSeconds (whole microseconds; infallible up to the representable
range). -/
def MicroSeconds.from_duration (d : Duration) : MicroSeconds :=
  ⟨((d.secs * 1000000 + d.nanos / 1000 : Nat) : Int)⟩

/-- The two-field timestamp of timeval.rs: whole seconds and fractional
microseconds, both signed 64-bit fields (embedded as Int). -/
structure Timeval where
  tv_sec : Int
  tv_usec : Int
deriving DecidableEq

/-- Bit set in the tv_usec field to mark a monotonic-origin value
(source: const PA_TIMEVAL_RTCLOCK = 1 shifted left by 30). -/
def PA_TIMEVAL_RTCLOCK : Int := 1073741824

/-- Source Timeval::new: direct construction from the two raw fields. -/
def Timeval.new (sec usec : Int) : Timeval := ⟨sec, usec⟩

/-- Source Timeval::new_zero. -/
def Timeval.new_zero : Timeval := Timeval.new 0 0

/-- Source impl PartialEq for Timeval: exact field-wise comparison of
tv_sec and tv_usec. -/
def Timeval.eq (a b : Timeval) : Bool :=
  decide (a.tv_sec = b.tv_sec) && decide (a.tv_usec = b.tv_usec)

/-- Modelled from the spec: the foreign comparison primitive
pa_timeval_cmp, a straightforward lexicographic comparison of the raw
(tv_sec, tv_usec) integer fields, flag bit included in the numeric value
of the fractional field; negative, zero or positive result. -/
def pa_timeval_cmp (a b : Timeval) : Int :=
  if a.tv_sec < b.tv_sec then -1
  else if b.tv_sec < a.tv_sec then 1
  else if a.tv_usec < b.tv_usec then -1
  else if b.tv_usec < a.tv_usec then 1
  else 0

/-- Source impl Ord for Timeval: maps the sign of pa_timeval_cmp to a
three-way Ordering. -/
def Timeval.cmp (a b : Timeval) : Ordering :=
  if pa_timeval_cmp a b = 0 then Ordering.eq
  else if pa_timeval_cmp a b < 0 then Ordering.lt
  else Ordering.gt

/-- Lexicographic comparison of the two raw fields stated through the
standard Ordering combinators, used to compare the program order against
the spec wording. -/
def lex_timeval_cmp (a b : Timeval) : Ordering :=
  (compare a.tv_sec b.tv_sec).then (compare a.tv_usec b.tv_usec)

/-- Modelled from the spec: conversion of a Timeval to its total-microsecond
representation (From Timeval for MicroSeconds, defined outside the given
sources): seconds times one million plus the fractional field. -/
def MicroSeconds.from_timeval (tv : Timeval) : MicroSeconds :=
  ⟨tv.tv_sec * MICROS_PER_SEC + tv.tv_usec⟩

/-- Modelled from the spec: the standard microseconds to
(seconds, microseconds) decomposition (From MicroSeconds for Timeval,
defined outside the given sources); Euclidean quotient and remainder,
which agree with the unsigned arithmetic of the source on all
non-negative values. -/
def Timeval.from_micros (v : MicroSeconds) : Timeval :=
  ⟨v.us / MICROS_PER_SEC, v.us % MICROS_PER_SEC⟩

/-- Modelled from the spec: the foreign difference primitive
pa_timeval_diff, the signed microsecond difference of the two
total-microsecond representations, no special-casing. -/
def pa_timeval_diff (a b : Timeval) : Int :=
  (MicroSeconds.from_timeval a).us - (MicroSeconds.from_timeval b).us

/-- Source Timeval::diff: wraps the foreign difference primitive. -/
def Timeval.diff (a b : Timeval) : MicroSeconds := ⟨pa_timeval_diff a b⟩

/-- Source Timeval::checked_add: convert both operands to MicroSeconds,
delegate to the checked MicroSeconds addition, convert back. -/
def Timeval.checked_add (a b : Timeval) : Option Timeval :=
  ((MicroSeconds.from_timeval a).checked_add (MicroSeconds.from_timeval b)).map
    Timeval.from_micros

/-- Source Timeval::checked_add_us. -/
def Timeval.checked_add_us (a : Timeval) (rhs : MicroSeconds) : Option Timeval :=
  ((MicroSeconds.from_timeval a).checked_add rhs).map Timeval.from_micros

/-- Source Timeval::checked_add_duration. -/
def Timeval.checked_add_duration (a : Timeval) (rhs : Duration) : Option Timeval :=
  ((MicroSeconds.from_timeval a).checked_add (MicroSeconds.from_duration rhs)).map
    Timeval.from_micros

/-- Source Timeval::checked_sub. -/
def Timeval.checked_sub (a b : Timeval) : Option Timeval :=
  ((MicroSeconds.from_timeval a).checked_sub (MicroSeconds.from_timeval b)).map
    Timeval.from_micros

/-- Source Timeval::checked_sub_us. -/
def Timeval.checked_sub_us (a : Timeval) (rhs : MicroSeconds) : Option Timeval :=
  ((MicroSeconds.from_timeval a).checked_sub rhs).map Timeval.from_micros

/-- Source Timeval::checked_sub_duration. -/
def Timeval.checked_sub_duration (a : Timeval) (rhs : Duration) : Option Timeval :=
  ((MicroSeconds.from_timeval a).checked_sub (MicroSeconds.from_duration rhs)).map
    Timeval.from_micros

/-- Source Timeval::checked_mul (u32 scalar embedded as Nat). -/
def Timeval.checked_mul (a : Timeval) (rhs : Nat) : Option Timeval :=
  ((MicroSeconds.from_timeval a).checked_mul rhs).map Timeval.from_micros

/-- Source Timeval::checked_div. -/
def Timeval.checked_div (a : Timeval) (rhs : Nat) : Option Timeval :=
  ((MicroSeconds.from_timeval a).checked_div rhs).map Timeval.from_micros

/-- Source Timeval::checked_rem. -/
def Timeval.checked_rem (a : Timeval) (rhs : Nat) : Option Timeval :=
  ((MicroSeconds.from_timeval a).checked_rem rhs).map Timeval.from_micros

/-- Source wallclock_from_rtclock: takes the two call-time snapshots
wc_now (wallclock now) and rt_now (monotonic now, as a raw Timeval) as
explicit arguments. The source computes wc_now plus or minus the
difference through the panicking operators, binds the computed value to
the name _ (discarding it), and then stores the unmodified wc_now into
self; the model keeps the panic possibility of the discarded computation
(none when the inner .unwrap() would panic) and otherwise returns the
value the source stores. -/
def Timeval.wallclock_from_rtclock (self wc_now rt_now : Timeval) : Option Timeval :=
  match (match Timeval.cmp rt_now self with
         | Ordering.lt => Timeval.checked_add_us wc_now (Timeval.diff self rt_now)
         | _ => Timeval.checked_sub_us wc_now (Timeval.diff rt_now self)) with
  | none => none
  | some _ => some wc_now

/-- Source Timeval::set_rt: asserts the value is not the invalid sentinel
(modelled as none on violation), overwrites self with the decomposition
of v, then either sets the rtclock flag bit (rtclock true) or runs the
wallclock reconciliation (rtclock false). The clock snapshots used by the
reconciliation branch are passed explicitly. -/
def Timeval.set_rt (self : Timeval) (v : MicroSeconds) (rtclock : Bool)
    (wc_now rt_now : Timeval) : Option Timeval :=
  if v = USEC_INVALID then none
  else
    let s := Timeval.from_micros v
    match rtclock with
    | true => some { s with tv_usec := Int.lor s.tv_usec PA_TIMEVAL_RTCLOCK }
    | false => Timeval.wallclock_from_rtclock s wc_now rt_now

/-- Source impl Add for Timeval: checked_add with .unwrap (panic as none). -/
def Timeval.add (a b : Timeval) : Option Timeval := Timeval.checked_add a b

/-- Source impl AddAssign for Timeval. -/
def Timeval.add_assign (a b : Timeval) : Option Timeval := Timeval.checked_add a b

/-- Source impl Add MicroSeconds for Timeval. -/
def Timeval.add_us (a : Timeval) (rhs : MicroSeconds) : Option Timeval :=
  Timeval.checked_add_us a rhs

/-- Source impl AddAssign MicroSeconds for Timeval. -/
def Timeval.add_us_assign (a : Timeval) (rhs : MicroSeconds) : Option Timeval :=
  Timeval.checked_add_us a rhs

/-- Source impl Add Duration for Timeval. -/
def Timeval.add_duration (a : Timeval) (rhs : Duration) : Option Timeval :=
  Timeval.checked_add_duration a rhs

/-- Source impl AddAssign Duration for Timeval. -/
def Timeval.add_duration_assign (a : Timeval) (rhs : Duration) : Option Timeval :=
  Timeval.checked_add_duration a rhs

/-- Source impl Sub for Timeval. -/
def Timeval.sub (a b : Timeval) : Option Timeval := Timeval.checked_sub a b

/-- Source impl SubAssign for Timeval. -/
def Timeval.sub_assign (a b : Timeval) : Option Timeval := Timeval.checked_sub a b

/-- Source impl Sub MicroSeconds for Timeval. -/
def Timeval.sub_us (a : Timeval) (rhs : MicroSeconds) : Option Timeval :=
  Timeval.checked_sub_us a rhs

/-- Source impl SubAssign MicroSeconds for Timeval. -/
def Timeval.sub_us_assign (a : Timeval) (rhs : MicroSeconds) : Option Timeval :=
  Timeval.checked_sub_us a rhs

/-- Source impl Sub Duration for Timeval. -/
def Timeval.sub_duration (a : Timeval) (rhs : Duration) : Option Timeval :=
  Timeval.checked_sub_duration a rhs

/-- Source impl SubAssign Duration for Timeval. -/
def Timeval.sub_duration_assign (a : Timeval) (rhs : Duration) : Option Timeval :=
  Timeval.checked_sub_duration a rhs

/-- Source impl Mul u32 for Timeval. -/
def Timeval.mul (a : Timeval) (rhs : Nat) : Option Timeval := Timeval.checked_mul a rhs

/-- Source impl MulAssign u32 for Timeval. -/
def Timeval.mul_assign (a : Timeval) (rhs : Nat) : Option Timeval :=
  Timeval.checked_mul a rhs

/-- Source impl Div u32 for Timeval. -/
def Timeval.div (a : Timeval) (rhs : Nat) : Option Timeval := Timeval.checked_div a rhs

/-- Source impl DivAssign u32 for Timeval. -/
def Timeval.div_assign (a : Timeval) (rhs : Nat) : Option Timeval :=
  Timeval.checked_div a rhs

/-- Source impl Rem u32 for Timeval. -/
def Timeval.rem (a : Timeval) (rhs : Nat) : Option Timeval := Timeval.checked_rem a rhs

/-- Source impl RemAssign u32 for Timeval. -/
def Timeval.rem_assign (a : Timeval) (rhs : Nat) : Option Timeval :=
  Timeval.checked_rem a rhs

lemma pa_timeval_cmp_eq_zero_iff (a b : Timeval) :
    pa_timeval_cmp a b = 0 ↔ a.tv_sec = b.tv_sec ∧ a.tv_usec = b.tv_usec := by
  unfold pa_timeval_cmp
  split_ifs <;> (try simp only [false_iff, true_iff]) <;> omega

lemma pa_timeval_cmp_neg_iff (a b : Timeval) :
    pa_timeval_cmp a b < 0 ↔
      a.tv_sec < b.tv_sec ∨ (a.tv_sec = b.tv_sec ∧ a.tv_usec < b.tv_usec) := by
  unfold pa_timeval_cmp
  split_ifs <;> (try simp only [false_iff, true_iff]) <;> omega

lemma pa_timeval_cmp_pos_iff (a b : Timeval) :
    0 < pa_timeval_cmp a b ↔
      b.tv_sec < a.tv_sec ∨ (a.tv_sec = b.tv_sec ∧ b.tv_usec < a.tv_usec) := by
  unfold pa_timeval_cmp
  split_ifs <;> (try simp only [false_iff, true_iff]) <;> omega

lemma timeval_cmp_lt_sign (a b : Timeval) :
    Timeval.cmp a b = Ordering.lt ↔ pa_timeval_cmp a b < 0 := by
  unfold Timeval.cmp
  split_ifs with h0 hneg
  · simp [h0]
  · simp [hneg]
  · simp
    omega

lemma timeval_cmp_eq_sign (a b : Timeval) :
    Timeval.cmp a b = Ordering.eq ↔ pa_timeval_cmp a b = 0 := by
  unfold Timeval.cmp
  split_ifs with h0 hneg
  · simp [h0]
  · simp
    omega
  · simp
    omega

lemma timeval_cmp_gt_sign (a b : Timeval) :
    Timeval.cmp a b = Ordering.gt ↔ 0 < pa_timeval_cmp a b := by
  unfold Timeval.cmp
  split_ifs with h0 hneg
  · simp [h0]
  · simp
    omega
  · simp
    omega

lemma timeval_cmp_lt_iff (a b : Timeval) :
    Timeval.cmp a b = Ordering.lt ↔
      a.tv_sec < b.tv_sec ∨ (a.tv_sec = b.tv_sec ∧ a.tv_usec < b.tv_usec) :=
  (timeval_cmp_lt_sign a b).trans (pa_timeval_cmp_neg_iff a b)

lemma timeval_cmp_eq_iff (a b : Timeval) :
    Timeval.cmp a b = Ordering.eq ↔ a.tv_sec = b.tv_sec ∧ a.tv_usec = b.tv_usec :=
  (timeval_cmp_eq_sign a b).trans (pa_timeval_cmp_eq_zero_iff a b)

lemma timeval_cmp_gt_iff (a b : Timeval) :
    Timeval.cmp a b = Ordering.gt ↔
      b.tv_sec < a.tv_sec ∨ (a.tv_sec = b.tv_sec ∧ b.tv_usec < a.tv_usec) :=
  (timeval_cmp_gt_sign a b).trans (pa_timeval_cmp_pos_iff a b)

lemma timeval_eq_true_iff (a b : Timeval) :
    Timeval.eq a b = true ↔ a.tv_sec = b.tv_sec ∧ a.tv_usec = b.tv_usec := by
  simp [Timeval.eq]

lemma timeval_eq_false_iff (a b : Timeval) :
    Timeval.eq a b = false ↔ a.tv_sec ≠ b.tv_sec ∨ a.tv_usec ≠ b.tv_usec := by
  rw [Bool.eq_false_iff, Ne, timeval_eq_true_iff]
  tauto

lemma compare_int_def (a b : Int) :
    compare a b = if a < b then Ordering.lt else if a = b then Ordering.eq
      else Ordering.gt := by
  simp [compare, compareOfLessAndEq]


/-- Claim C2: for the invalid sentinel value and any rtclock flag,
Timeval::set_rt aborts with an assertion failure (modelled as none)
rather than producing any Timeval result. -/
theorem set_rt_invalid_sentinel_panics :
    ∀ (self : Timeval) (rtclock : Bool) (wc_now rt_now : Timeval),
      Timeval.set_rt self USEC_INVALID rtclock wc_now rt_now = none := by
  intro self rtclock wc_now rt_now
  simp [Timeval.set_rt]

/-- Claim C3: for a value that is not the invalid sentinel, set_rt with
rtclock true produces exactly the standard (seconds, microseconds)
decomposition with the reserved flag bit OR-ed into the microseconds
field; the result does not depend on the clock snapshots (no clock read,
no reconciliation). -/
theorem set_rt_true_flags_decomposition :
    ∀ (self : Timeval) (v : MicroSeconds) (wc_now rt_now : Timeval),
      v ≠ USEC_INVALID →
      Timeval.set_rt self v true wc_now rt_now =
        some (Timeval.mk (v.us / MICROS_PER_SEC)
          (Int.lor (v.us % MICROS_PER_SEC) PA_TIMEVAL_RTCLOCK)) := by
  intro self v wc_now rt_now hv
  simp [Timeval.set_rt, hv, Timeval.from_micros]

/-- Witness for claim C3 at a concrete input. -/
theorem set_rt_true_flags_decomposition_witness :
    Timeval.set_rt (Timeval.new 0 0) ⟨5000001⟩ true (Timeval.new 7 7) (Timeval.new 3 3) =
      some (Timeval.mk ((5000001 : Int) / MICROS_PER_SEC)
        (Int.lor ((5000001 : Int) % MICROS_PER_SEC) PA_TIMEVAL_RTCLOCK)) :=
  set_rt_true_flags_decomposition (Timeval.new 0 0) ⟨5000001⟩ (Timeval.new 7 7)
    (Timeval.new 3 3) (by decide)

/-- Claim C7: addition of Timeval values carries overflowed microseconds
across the one-million boundary into the seconds field; concrete case
(100 s, 500000 us) + (0 s, 600000 us) = (101 s, 100000 us). -/
theorem timeval_add_carry_concrete :
    Timeval.add (Timeval.new 100 500000) (Timeval.new 0 600000)
      = some (Timeval.new 101 100000) := by
  decide

/-- Claim C8: converting a non-sentinel MicroSeconds value to Timeval and
back yields the value exactly (lossless round trip). -/
theorem microseconds_timeval_roundtrip :
    ∀ v : MicroSeconds, v ≠ USEC_INVALID →
      MicroSeconds.from_timeval (Timeval.from_micros v) = v := by
  intro v hv
  cases v with
  | mk x =>
    simp only [MicroSeconds.from_timeval, Timeval.from_micros, MICROS_PER_SEC,
      MicroSeconds.mk.injEq]
    omega

/-- Witness for claim C8 at a concrete input. -/
theorem microseconds_timeval_roundtrip_witness :
    MicroSeconds.from_timeval (Timeval.from_micros ⟨123456789⟩) = ⟨123456789⟩ :=
  microseconds_timeval_roundtrip ⟨123456789⟩ (by decide)

/-- Claim C9: checked addition of valid MicroSeconds values whose sum is
representable returns the exact sum and is commutative; the concrete
overflow case at the top of the signed 64-bit range returns none (never
a wrapped value); the checked addition of Timeval delegates to the
MicroSeconds checked addition through the conversions. -/
theorem microseconds_checked_add_spec :
    (∀ a b : MicroSeconds, a ≠ USEC_INVALID → b ≠ USEC_INVALID →
       inI64 (a.us + b.us) →
       MicroSeconds.checked_add a b = some ⟨a.us + b.us⟩ ∧
       MicroSeconds.checked_add a b = MicroSeconds.checked_add b a)
    ∧ MicroSeconds.checked_add ⟨i64Max⟩ ⟨1⟩ = none
    ∧ (∀ x y : Timeval, Timeval.checked_add x y =
         ((MicroSeconds.from_timeval x).checked_add
           (MicroSeconds.from_timeval y)).map Timeval.from_micros) := by
  refine ⟨?_, by decide, fun x y => rfl⟩
  intro a b ha hb hsum
  constructor
  · rw [MicroSeconds.checked_add, if_neg (by tauto), if_pos hsum]
  · rw [MicroSeconds.checked_add, if_neg (by tauto), if_pos hsum,
      MicroSeconds.checked_add, if_neg (by tauto), if_pos (by rw [Int.add_comm]; exact hsum)]
    simp [Int.add_comm]

/-- Witness for claim C9 at a concrete input. -/
theorem microseconds_checked_add_spec_witness :
    MicroSeconds.checked_add ⟨3⟩ ⟨4⟩ = some ⟨7⟩ ∧
    MicroSeconds.checked_add ⟨3⟩ ⟨4⟩ = MicroSeconds.checked_add ⟨4⟩ ⟨3⟩ :=
  microseconds_checked_add_spec.1 ⟨3⟩ ⟨4⟩ (by decide) (by decide) (by decide)

/-- Claim C4: the comparison of Timeval is a strict total order (for any
two values exactly one of less, equal, greater holds, equality being the
field-wise PartialEq; the order is transitive) and it coincides with the
lexicographic comparison of the raw (tv_sec, tv_usec) integer fields,
the rtclock flag bit counted inside the numeric value of tv_usec. -/
theorem timeval_cmp_strict_total_order :
    ∀ a b c : Timeval,
      ((Timeval.cmp a b = Ordering.lt ∧ Timeval.eq a b = false ∧
          Timeval.cmp a b ≠ Ordering.gt) ∨
       (Timeval.cmp a b ≠ Ordering.lt ∧ Timeval.eq a b = true ∧
          Timeval.cmp a b ≠ Ordering.gt) ∨
       (Timeval.cmp a b ≠ Ordering.lt ∧ Timeval.eq a b = false ∧
          Timeval.cmp a b = Ordering.gt))
      ∧ (Timeval.cmp a b = Ordering.lt → Timeval.cmp b c = Ordering.lt →
          Timeval.cmp a c = Ordering.lt)
      ∧ Timeval.cmp a b = lex_timeval_cmp a b := by
  intro a b c
  refine ⟨?_, ?_, ?_⟩
  · rcases lt_trichotomy a.tv_sec b.tv_sec with hs | hs | hs
    · exact Or.inl ⟨(timeval_cmp_lt_iff a b).mpr (Or.inl hs),
        (timeval_eq_false_iff a b).mpr (Or.inl (by omega)),
        fun hg => by rw [timeval_cmp_gt_iff] at hg; omega⟩
    · rcases lt_trichotomy a.tv_usec b.tv_usec with hu | hu | hu
      · exact Or.inl ⟨(timeval_cmp_lt_iff a b).mpr (Or.inr ⟨hs, hu⟩),
          (timeval_eq_false_iff a b).mpr (Or.inr (by omega)),
          fun hg => by rw [timeval_cmp_gt_iff] at hg; omega⟩
      · exact Or.inr (Or.inl ⟨fun hl => by rw [timeval_cmp_lt_iff] at hl; omega,
          (timeval_eq_true_iff a b).mpr ⟨hs, hu⟩,
          fun hg => by rw [timeval_cmp_gt_iff] at hg; omega⟩)
      · exact Or.inr (Or.inr ⟨fun hl => by rw [timeval_cmp_lt_iff] at hl; omega,
          (timeval_eq_false_iff a b).mpr (Or.inr (by omega)),
          (timeval_cmp_gt_iff a b).mpr (Or.inr ⟨hs, hu⟩)⟩)
    · exact Or.inr (Or.inr ⟨fun hl => by rw [timeval_cmp_lt_iff] at hl; omega,
        (timeval_eq_false_iff a b).mpr (Or.inl (by omega)),
        (timeval_cmp_gt_iff a b).mpr (Or.inl hs)⟩)
  · intro h1 h2
    rw [timeval_cmp_lt_iff] at h1 h2 ⊢
    omega
  · rw [lex_timeval_cmp, compare_int_def, compare_int_def]
    unfold Timeval.cmp pa_timeval_cmp
    split_ifs <;> simp_all [Ordering.then] <;> omega

/-- Witness for claim C4 at concrete inputs (transitivity applied to a
chain of three samples). -/
theorem timeval_cmp_strict_total_order_witness :
    Timeval.cmp (Timeval.new 0 5) (Timeval.new 1 0) = Ordering.lt :=
  (timeval_cmp_strict_total_order (Timeval.new 0 5) (Timeval.new 0 9)
    (Timeval.new 1 0)).2.1 (by decide) (by decide)

/-- Claim C5 (amended): diff is antisymmetric, diff(a,b) = -diff(b,a); and
the subtraction round trip a.checked_sub_us(diff(a,b)) = Some(b) holds
whenever no overflow or sentinel failure occurs AND b is in normalized
form, that is b equals the decomposition of its own total-microsecond
value; for unnormalized b (fractional field outside the canonical range,
for instance with the rtclock flag bit set) the result is the normalized
form of b instead of b itself. -/
theorem timeval_diff_antisym_sub_roundtrip :
    ∀ a b : Timeval,
      (Timeval.diff a b).us = -((Timeval.diff b a).us)
      ∧ (MicroSeconds.from_timeval a ≠ USEC_INVALID →
         Timeval.diff a b ≠ USEC_INVALID →
         inI64 ((MicroSeconds.from_timeval a).us - (Timeval.diff a b).us) →
         Timeval.from_micros (MicroSeconds.from_timeval b) = b →
         Timeval.checked_sub_us a (Timeval.diff a b) = some b) := by
  intro a b
  constructor
  · simp only [Timeval.diff, pa_timeval_diff]
    omega
  · intro h1 h2 h3 h4
    have key : (MicroSeconds.from_timeval a).us - (Timeval.diff a b).us
        = (MicroSeconds.from_timeval b).us := by
      simp only [Timeval.diff, pa_timeval_diff]
      omega
    have hno : ¬(MicroSeconds.from_timeval a = USEC_INVALID ∨
        Timeval.diff a b = USEC_INVALID) := by tauto
    rw [Timeval.checked_sub_us, MicroSeconds.checked_sub, if_neg hno, if_pos h3]
    rw [Option.map_some']
    rw [key]
    exact congrArg some h4

/-- Witness for claim C5 at a concrete input. -/
theorem timeval_diff_antisym_sub_roundtrip_witness :
    Timeval.checked_sub_us (Timeval.new 2 0)
      (Timeval.diff (Timeval.new 2 0) (Timeval.new 1 500000))
      = some (Timeval.new 1 500000) :=
  (timeval_diff_antisym_sub_roundtrip (Timeval.new 2 0) (Timeval.new 1 500000)).2
    (by decide) (by decide) (by decide) (by decide)

/-- Counterexample for claim C5 as stated: with a = b = (0 s, 1000000 us)
no overflow occurs (the checked subtraction returns a value), yet
a.checked_sub_us(diff(a,b)) is not Some(b): the round trip returns the
normalized decomposition (1 s, 0 us) of the same instant instead. -/
theorem timeval_sub_roundtrip_counterexample :
    Timeval.checked_sub_us (Timeval.new 0 1000000)
      (Timeval.diff (Timeval.new 0 1000000) (Timeval.new 0 1000000))
      = some (Timeval.new 1 0)
    ∧ some (Timeval.new 1 0) ≠ some (Timeval.new 0 1000000) := by
  constructor
  · decide
  · decide

/-- Claim C6: every unchecked operator form on Timeval (the overloads of
addition, subtraction, scalar multiplication, division and remainder,
and their assign variants) returns exactly the result of the
corresponding checked method; in the embedding a panic and an absent
checked result are both the value none, so the operator panics exactly
when the checked method returns none and otherwise returns the same
value, never a sentinel or wrapped value. -/
theorem timeval_operators_delegate_to_checked :
    ∀ (a b : Timeval) (r : MicroSeconds) (d : Duration) (k : Nat),
      Timeval.add a b = Timeval.checked_add a b
      ∧ Timeval.add_assign a b = Timeval.checked_add a b
      ∧ Timeval.add_us a r = Timeval.checked_add_us a r
      ∧ Timeval.add_us_assign a r = Timeval.checked_add_us a r
      ∧ Timeval.add_duration a d = Timeval.checked_add_duration a d
      ∧ Timeval.add_duration_assign a d = Timeval.checked_add_duration a d
      ∧ Timeval.sub a b = Timeval.checked_sub a b
      ∧ Timeval.sub_assign a b = Timeval.checked_sub a b
      ∧ Timeval.sub_us a r = Timeval.checked_sub_us a r
      ∧ Timeval.sub_us_assign a r = Timeval.checked_sub_us a r
      ∧ Timeval.sub_duration a d = Timeval.checked_sub_duration a d
      ∧ Timeval.sub_duration_assign a d = Timeval.checked_sub_duration a d
      ∧ Timeval.mul a k = Timeval.checked_mul a k
      ∧ Timeval.mul_assign a k = Timeval.checked_mul a k
      ∧ Timeval.div a k = Timeval.checked_div a k
      ∧ Timeval.div_assign a k = Timeval.checked_div a k
      ∧ Timeval.rem a k = Timeval.checked_rem a k
      ∧ Timeval.rem_assign a k = Timeval.checked_rem a k := by
  intro a b r d k
  exact ⟨rfl, rfl, rfl, rfl, rfl, rfl, rfl, rfl, rfl, rfl, rfl, rfl, rfl, rfl, rfl,
    rfl, rfl, rfl⟩

/-- Claim C1 (code bug evidence): at the failing input self = (10 s, 0 us)
with call-time snapshots wc_now = (1000 s, 0 us) and rt_now = (4 s, 0 us),
the source of wallclock_from_rtclock discards the computed adjustment and
returns the unmodified wc_now, (1000 s, 0 us); the value the claim (and
the PA function the source says it copies) requires, wc_now + diff(self,
rt_now), is (1006 s, 0 us), a different Timeval. -/
theorem wallclock_from_rtclock_discards_adjustment :
    Timeval.wallclock_from_rtclock (Timeval.new 10 0) (Timeval.new 1000 0)
        (Timeval.new 4 0) = some (Timeval.new 1000 0)
    ∧ Timeval.cmp (Timeval.new 4 0) (Timeval.new 10 0) = Ordering.lt
    ∧ Timeval.checked_add_us (Timeval.new 1000 0)
        (Timeval.diff (Timeval.new 10 0) (Timeval.new 4 0))
        = some (Timeval.new 1006 0)
    ∧ Timeval.new 1000 0 ≠ Timeval.new 1006 0 := by
  refine ⟨by decide, by decide, by decide, by decide⟩

/-- Claim C10: Timeval equality is exact field-wise comparison, and a
timestamp carrying the rtclock flag bit in its microseconds field is
never equal to the otherwise identical timestamp with the flag bit
clear (here for any fractional value in the canonical range below the
flag bit, which covers every decomposition the program constructs). -/
theorem timeval_eq_fieldwise :
    ∀ a b : Timeval,
      (Timeval.eq a b = true ↔ a.tv_sec = b.tv_sec ∧ a.tv_usec = b.tv_usec)
      ∧ (∀ s u : Int, 0 ≤ u → u < PA_TIMEVAL_RTCLOCK →
          Timeval.eq (Timeval.mk s (Int.lor u PA_TIMEVAL_RTCLOCK))
            (Timeval.mk s u) = false) := by
  intro a b
  refine ⟨timeval_eq_true_iff a b, ?_⟩
  intro s u hu0 huF
  rw [timeval_eq_false_iff]
  right
  show Int.lor u PA_TIMEVAL_RTCLOCK ≠ u
  obtain ⟨n, rfl⟩ := Int.eq_ofNat_of_zero_le hu0
  intro hcontra
  have hn : n ||| 1073741824 = n := by
    have hcast : Int.lor (↑n) PA_TIMEVAL_RTCLOCK = ((n ||| 1073741824 : Nat) : Int) := rfl
    rw [hcast] at hcontra
    exact_mod_cast hcontra
  have huF2 : (↑n : Int) < 1073741824 := huF
  have hlt : n < 2 ^ 30 := by
    have h1073 : (1073741824 : Nat) = 2 ^ 30 := by norm_num
    omega
  have hfalse : Nat.testBit n 30 = false := Nat.testBit_lt_two_pow hlt
  have htrue : Nat.testBit (n ||| 1073741824) 30 = true := by
    rw [Nat.testBit_lor, hfalse]
    decide
  rw [hn, hfalse] at htrue
  exact Bool.false_ne_true htrue

/-- Witness for claim C10 at a concrete input. -/
theorem timeval_eq_fieldwise_witness :
    Timeval.eq (Timeval.mk 5 (Int.lor 3 PA_TIMEVAL_RTCLOCK)) (Timeval.mk 5 3) = false :=
  (timeval_eq_fieldwise (Timeval.new 0 0) (Timeval.new 0 0)).2 5 3 (by decide) (by decide)
